import Mathlib

/-!
Verification of the data pipeline of `app-v26.py` (San Francisco crime
dashboard).  The file embeds the pipeline shallowly:

* rows of the raw CSV become `RawRow` values (a cell that pandas would read
  as `NaN` is `none`);
* `load_data` (lines 8-19 of the source) becomes a `List.filterMap` over the
  rows: `pd.to_datetime(..., errors="coerce", utc=True)` is modelled by an
  executable datetime parser returning `Option Timestamp`, and
  `dropna(subset=[...])` by the option bind of the parsed timestamp and the
  two coordinates;
* `norm_res` (lines 21-24) becomes a substring search over the uppercased
  textual representation of the cell (`str(nan) = "nan"` for a missing cell);
* the module-level dataset construction (lines 32-34) becomes `buildDataset`;
* `limit_data` (lines 26-29) becomes a pure function; `DataFrame.sample`
  with a fixed `random_state` is modelled by a deterministic pseudo-random
  selection without replacement (`sampleDf`);
* the per-tab query code (`df_filtered`, `df_day_agg`, the monthly
  `time_series` group-by) is embedded as list filtering, `value_counts`
  as a count-descending table of the values that occur, and
  `pd.Grouper(key='date', freq='M')` as bucketing by the *last* calendar
  day of the record's month (pandas month-end frequency).
-/

namespace SFCrime

/-! ## Resolution classifier (`norm_res`, source lines 21-24) -/

/-- `isPrefixList n h` is true when the character list `n` starts `h`
(the one-position test behind Python's substring operator). -/
def isPrefixList : List Char → List Char → Bool
  | [], _ => true
  | _ :: _, [] => false
  | a :: as, b :: bs => a == b && isPrefixList as bs

/-- `containsSeg n h` is Python's `n in h` on character lists: `n` occurs
contiguously somewhere in `h`. -/
def containsSeg : List Char → List Char → Bool
  | n, [] => isPrefixList n []
  | n, b :: bs => isPrefixList n (b :: bs) || containsSeg n bs

/-- The keyword list of `norm_res` (source line 22). -/
def resolved_keys : List String :=
  ["ARREST", "BOOKED", "CITED", "CLEARED", "EXCEPTIONAL"]

/-- Python's `str` applied to a cell of a pandas string column: a present
string is returned unchanged, a missing cell is the float `nan`, whose
textual representation is `"nan"`. -/
def pyStr : Option String → String
  | some s => s
  | none => "nan"

/-- Python's `str.upper()` on the character data of a string. -/
def upperStr (s : String) : String :=
  ⟨s.data.map Char.toUpper⟩

/-- `norm_res` (source lines 21-24): uppercase `str(r)` and classify
`"Resolved"` when any keyword occurs as a substring, else `"Open"`. -/
def norm_res (r : Option String) : String :=
  let r_up := upperStr (pyStr r)
  if resolved_keys.any (fun k => containsSeg k.toList r_up.toList) then
    "Resolved"
  else
    "Open"

/-- The propositional form of contiguous occurrence: `n` occurs in `h`
exactly when `h` splits as `pre ++ n ++ post`. -/
def OccursIn (n h : List Char) : Prop :=
  ∃ pre post, h = pre ++ n ++ post

theorem isPrefixList_iff (n h : List Char) :
    isPrefixList n h = true ↔ ∃ t, h = n ++ t := by
  induction n generalizing h with
  | nil => simp [isPrefixList]
  | cons a as ih =>
    cases h with
    | nil => simp [isPrefixList]
    | cons b bs =>
      simp only [isPrefixList, Bool.and_eq_true, beq_iff_eq, ih,
        List.cons_append, List.cons.injEq]
      constructor
      · rintro ⟨rfl, t, rfl⟩
        exact ⟨t, rfl, rfl⟩
      · rintro ⟨t, rfl, rfl⟩
        exact ⟨rfl, t, rfl⟩

theorem containsSeg_iff (n h : List Char) :
    containsSeg n h = true ↔ OccursIn n h := by
  unfold OccursIn
  induction h with
  | nil =>
    simp only [containsSeg, isPrefixList_iff]
    constructor
    · rintro ⟨t, ht⟩
      rcases List.append_eq_nil.mp ht.symm with ⟨rfl, rfl⟩
      exact ⟨[], [], rfl⟩
    · rintro ⟨pre, post, hsplit⟩
      rcases List.append_eq_nil.mp hsplit.symm with ⟨h1, rfl⟩
      rcases List.append_eq_nil.mp h1 with ⟨rfl, rfl⟩
      exact ⟨[], rfl⟩
  | cons b bs ih =>
    simp only [containsSeg, Bool.or_eq_true, isPrefixList_iff, ih]
    constructor
    · rintro (⟨t, ht⟩ | ⟨pre, post, hsplit⟩)
      · exact ⟨[], t, by simp [ht]⟩
      · exact ⟨b :: pre, post, by simp [hsplit]⟩
    · rintro ⟨pre, post, hsplit⟩
      cases pre with
      | nil =>
        left
        exact ⟨post, by simpa using hsplit⟩
      | cons p ps =>
        right
        refine ⟨ps, post, ?_⟩
        rw [List.append_assoc]
        exact (by simpa using hsplit : b = p ∧ bs = ps ++ (n ++ post)).2

/-! ## Timestamps and `pd.to_datetime(..., errors="coerce", utc=True)`

The source parses the `Incident Datetime` column with
`pd.to_datetime(..., errors="coerce", utc=True)` (line 10): a parse failure
yields the missing sentinel `NaT` instead of raising, and the instant is
kept in UTC with no local-timezone conversion.  We model the instant as a
calendar record and the parser as an executable function for the dataset's
`YYYY-MM-DD HH:MM:SS` encoding that returns `none` (the `NaT` sentinel) on
any malformed or out-of-range input. -/

structure Timestamp where
  year : Nat
  month : Nat
  day : Nat
  hour : Nat
  minute : Nat
  second : Nat
deriving DecidableEq, Repr

/-- Gregorian leap-year test. -/
def isLeap (y : Nat) : Bool :=
  (y % 4 == 0 && y % 100 != 0) || y % 400 == 0

/-- Number of days of month `m` in year `y`. -/
def daysInMonth (y m : Nat) : Nat :=
  if m == 2 then (if isLeap y then 29 else 28)
  else if m == 4 || m == 6 || m == 9 || m == 11 then 30
  else 31

/-- A decimal digit character, or `none`. -/
def digitVal (c : Char) : Option Nat :=
  if c.isDigit then some (c.toNat - 48) else none

/-- Two decimal digits. -/
def num2 (a b : Char) : Option Nat := do
  let x ← digitVal a
  let y ← digitVal b
  some (10 * x + y)

/-- Four decimal digits. -/
def num4 (a b c d : Char) : Option Nat := do
  let x ← num2 a b
  let y ← num2 c d
  some (100 * x + y)

/-- Shape-level parse of `"YYYY-MM-DD HH:MM:SS"`, without range checks. -/
def parseRaw (s : String) : Option Timestamp :=
  match s.toList with
  | [y1, y2, y3, y4, '-', m1, m2, '-', d1, d2, ' ',
     h1, h2, ':', i1, i2, ':', s1, s2] => do
    let y ← num4 y1 y2 y3 y4
    let mo ← num2 m1 m2
    let d ← num2 d1 d2
    let h ← num2 h1 h2
    let mi ← num2 i1 i2
    let se ← num2 s1 s2
    some ⟨y, mo, d, h, mi, se⟩
  | _ => none

/-- Calendar validity: the ranges `pd.to_datetime` enforces. -/
def checkRanges (ts : Timestamp) : Bool :=
  1 ≤ ts.month && ts.month ≤ 12 &&
  1 ≤ ts.day && ts.day ≤ daysInMonth ts.year ts.month &&
  ts.hour ≤ 23 && ts.minute ≤ 59 && ts.second ≤ 59

/-- Model of `pd.to_datetime(cell, errors="coerce", utc=True)`:
`none` is the `NaT` sentinel produced on failure. -/
def parseDatetime (s : String) : Option Timestamp :=
  (parseRaw s).bind fun ts => if checkRanges ts then some ts else none

theorem parseDatetime_checkRanges {s : String} {ts : Timestamp}
    (h : parseDatetime s = some ts) : checkRanges ts = true := by
  unfold parseDatetime at h
  cases hr : parseRaw s with
  | none => simp [hr] at h
  | some ts' =>
    simp only [hr, Option.some_bind] at h
    by_cases hc : checkRanges ts' = true
    · rw [if_pos hc] at h
      cases h
      exact hc
    · rw [if_neg hc] at h
      simp at h

theorem parseDatetime_hour_le {s : String} {ts : Timestamp}
    (h : parseDatetime s = some ts) : ts.hour ≤ 23 := by
  have hc := parseDatetime_checkRanges h
  unfold checkRanges at hc
  simp only [Bool.and_eq_true, decide_eq_true_eq] at hc
  exact hc.1.1.2

/-- `dt.floor("D")` (source line 12): zero the time-of-day fields. -/
def floorDay (ts : Timestamp) : Timestamp :=
  { ts with hour := 0, minute := 0, second := 0 }

/-- Day of week of a Gregorian date, `0 = Sunday`, by Sakamoto's method. -/
def dayOfWeek (y m d : Nat) : Nat :=
  let t := [0, 3, 2, 5, 0, 3, 5, 1, 4, 6, 2, 4]
  let y' := if m < 3 then y - 1 else y
  (y' + y' / 4 - y' / 100 + y' / 400 + t.getD (m - 1) 0 + d) % 7

/-- English weekday names, Sunday first (`pandas` `dt.day_name()` values). -/
def weekdayName (w : Nat) : String :=
  ["Sunday", "Monday", "Tuesday", "Wednesday",
   "Thursday", "Friday", "Saturday"].getD w ""

/-! ## Raw rows, `load_data` (source lines 8-19) and the dataset
(source lines 32-34) -/

/-- One raw CSV row restricted to the columns the pipeline touches.
A pandas `NaN`/missing cell is `none`. -/
structure RawRow where
  incidentDatetime : String
  latitude : Option Float
  longitude : Option Float
  category : Option String
  neighborhood : Option String
  district : Option String
  resolution : Option String

/-- A row of the frame `load_data` returns: parsed timestamp, the derived
calendar columns of lines 12-17, coordinates known present after the
`dropna` of line 11, the neighborhood defaulted by the `fillna` of
line 18; `category`, `district` and `resolution` still raw. -/
structure Record where
  datetime : Timestamp
  date : Timestamp
  hour : Nat
  year : Nat
  weekday : String
  month : Nat
  day : Nat
  latitude : Float
  longitude : Float
  category : Option String
  neighborhood : String
  district : Option String
  resolution : Option String

/-- The per-row action of `load_data`: parse the datetime (line 10), drop
the row when the timestamp or either coordinate is missing (line 11),
derive the calendar columns (lines 12-17) from the one parsed instant, and
default the neighborhood (line 18). -/
def normalizeRow (row : RawRow) : Option Record :=
  (parseDatetime row.incidentDatetime).bind fun ts =>
    row.latitude.bind fun lat =>
      row.longitude.bind fun lon =>
        some
          { datetime := ts
            date := floorDay ts
            hour := ts.hour
            year := ts.year
            weekday := weekdayName (dayOfWeek ts.year ts.month ts.day)
            month := ts.month
            day := ts.day
            latitude := lat
            longitude := lon
            category := row.category
            neighborhood := row.neighborhood.getD "Unknown"
            district := row.district
            resolution := row.resolution }

/-- `load_data` (source lines 8-19) over a list of raw rows. -/
def load_data (rows : List RawRow) : List Record :=
  rows.filterMap normalizeRow

/-- The survival condition of line 11: parsable timestamp and both
coordinates present. -/
def validRow (row : RawRow) : Bool :=
  (parseDatetime row.incidentDatetime).isSome &&
  row.latitude.isSome && row.longitude.isSome

/-- A row of the dataset the dashboard queries: after line 33 adds
`resolution_status` and line 34 defaults `Incident Category`. -/
structure FullRecord where
  datetime : Timestamp
  date : Timestamp
  hour : Nat
  year : Nat
  weekday : String
  month : Nat
  day : Nat
  latitude : Float
  longitude : Float
  category : String
  neighborhood : String
  district : Option String
  resolution : Option String
  resolution_status : String

/-- Lines 33-34 applied to one record: `resolution_status` is `norm_res`
of the raw `Resolution` cell, and a missing `Incident Category` becomes
`"Unknown"`. -/
def finalize (r : Record) : FullRecord :=
  { datetime := r.datetime
    date := r.date
    hour := r.hour
    year := r.year
    weekday := r.weekday
    month := r.month
    day := r.day
    latitude := r.latitude
    longitude := r.longitude
    category := r.category.getD "Unknown"
    neighborhood := r.neighborhood
    district := r.district
    resolution := r.resolution
    resolution_status := norm_res r.resolution }

/-- The module-level dataset `df` after lines 32-34. -/
def buildDataset (rows : List RawRow) : List FullRecord :=
  (load_data rows).map finalize

/-! ## `limit_data` (source lines 26-29)

`DataFrame.sample(max_rows, random_state=42)` draws `max_rows` rows without
replacement, deterministically for a fixed `random_state`.  We model the
library call by an executable selection without replacement driven by a
linear-congruential generator: what the repository relies on is exactly
that the draw is a subset of the input, has the requested size, and is a
pure function of the input and the seed. -/

/-- One step of a linear congruential generator (the classic
`glibc` constants), reduced mod `2^31`. -/
def lcgNext (s : Nat) : Nat :=
  (s * 1103515245 + 12345) % 2147483648

/-- Draw `n` elements without replacement, consuming the generator state. -/
def sampleGo : Nat → Nat → List α → List α
  | 0, _, _ => []
  | _ + 1, _, [] => []
  | n + 1, s, a :: rest =>
    let i := s % (rest.length + 1)
    (a :: rest).get ⟨i, Nat.mod_lt _ (Nat.succ_pos rest.length)⟩ ::
      sampleGo n (lcgNext s) ((a :: rest).eraseIdx i)

/-- Model of `df.sample(n, random_state=seed)`. -/
def sampleDf (df : List α) (n : Nat) (seed : Nat) : List α :=
  sampleGo n seed df

/-- `limit_data` (source lines 26-29): sample down to `max_rows` rows with
the fixed seed 42 when the input is larger, otherwise return it
unchanged.  The source's default bound is `max_rows=5000`. -/
def limit_data (df : List α) (max_rows : Nat) : List α :=
  if max_rows < df.length then sampleDf df max_rows 42 else df

/-! ## Query code of the tabs -/

/-- `df_filtered` (source lines 52-56): optionally filter by category, then
optionally by neighborhood; the sentinel `'All'` skips a predicate. -/
def df_filtered (dfn : List FullRecord) (cat neigh : String) :
    List FullRecord :=
  let d1 := if cat ≠ "All" then
    dfn.filter (fun r => r.category == cat) else dfn
  if neigh ≠ "All" then
    d1.filter (fun r => r.neighborhood == neigh) else d1

/-- The same two optional predicates applied in the opposite order. -/
def df_filteredRev (dfn : List FullRecord) (cat neigh : String) :
    List FullRecord :=
  let d1 := if neigh ≠ "All" then
    dfn.filter (fun r => r.neighborhood == neigh) else dfn
  if cat ≠ "All" then
    d1.filter (fun r => r.category == cat) else d1

/-- Both predicates evaluated simultaneously as one conjunction, an
omitted (`'All'`) predicate passing every record. -/
def filteredBoth (dfn : List FullRecord) (cat neigh : String) :
    List FullRecord :=
  dfn.filter fun r =>
    (cat == "All" || r.category == cat) &&
    (neigh == "All" || r.neighborhood == neigh)

/-- First-occurrence deduplication with an accumulator of seen values
(the distinct keys of a pandas group-by / `value_counts`, in order of
first appearance). -/
def uniqFromSeen [DecidableEq α] (seen : List α) : List α → List α
  | [] => []
  | x :: xs =>
    if x ∈ seen then uniqFromSeen seen xs
    else x :: uniqFromSeen (x :: seen) xs

/-- The distinct values of `l` in order of first appearance. -/
def uniqueFirst [DecidableEq α] (l : List α) : List α :=
  uniqFromSeen [] l

/-- Count-descending comparison used by `value_counts` (larger counts
first). -/
def countGE (a b : String × Nat) : Prop :=
  b.2 ≤ a.2

instance : DecidableRel countGE :=
  fun a b => Nat.decLe b.2 a.2

instance : IsTotal (String × Nat) countGE :=
  ⟨fun a b => Nat.le_total b.2 a.2⟩

instance : IsTrans (String × Nat) countGE :=
  ⟨fun _ _ _ hab hbc => Nat.le_trans hbc hab⟩

/-- `Series.value_counts()`: the distinct values that occur, each paired
with its number of occurrences, sorted by descending count (stably, so
ties keep first-appearance order).  Values that do not occur are absent. -/
def valueCounts (l : List String) : List (String × Nat) :=
  List.insertionSort countGE ((uniqueFirst l).map fun v => (v, l.count v))

/-- `df_day` (source line 148): the records at the selected hour in the
selected police district (a missing district never equals a selected
one, as in pandas `NaN` comparisons). -/
def df_day (dfn : List FullRecord) (h : Nat) (d : String) :
    List FullRecord :=
  dfn.filter fun r => r.hour == h && r.district == some d

/-- `df_day_agg` (source lines 149-150): `value_counts` of the `weekday`
column of `df_day`. -/
def df_day_agg (dfn : List FullRecord) (h : Nat) (d : String) :
    List (String × Nat) :=
  valueCounts ((df_day dfn h d).map FullRecord.weekday)

/-- The month-end label `pd.Grouper(key='date', freq='M')` gives a date:
the last calendar day of that date's month, at midnight. -/
def monthEnd (ts : Timestamp) : Timestamp :=
  ⟨ts.year, ts.month, daysInMonth ts.year ts.month, 0, 0, 0⟩

/-- Linear key of a timestamp for chronological comparison. -/
def tsKey (ts : Timestamp) : Nat :=
  ((((ts.year * 13 + ts.month) * 32 + ts.day) * 24 + ts.hour) * 60 +
      ts.minute) * 60 + ts.second

/-- Chronological order on timestamps. -/
def tsLE (a b : Timestamp) : Prop :=
  tsKey a ≤ tsKey b

instance : DecidableRel tsLE :=
  fun a b => Nat.decLe (tsKey a) (tsKey b)

/-- The distinct month-end bucket labels of a record set. -/
def monthKeys (dfn : List FullRecord) : List Timestamp :=
  uniqueFirst (dfn.map fun r => monthEnd r.date)

/-- The monthly group-by of source line 134 (and the date part of line
58): `groupby(pd.Grouper(key='date', freq='M')).size()`, i.e. each record
is bucketed under the month-end label of its `date`, buckets are listed
chronologically, and each carries its row count. -/
def time_series (dfn : List FullRecord) : List (Timestamp × Nat) :=
  (List.insertionSort tsLE (monthKeys dfn)).map fun k =>
    (k, (dfn.filter fun r => monthEnd r.date == k).length)

/-! ## Fixtures -/

/-- A valid raw row: Monday 2024-03-11, category Larceny, district
Central, an unresolved disposition. -/
def row1 : RawRow :=
  ⟨"2024-03-11 12:30:00", some 37.7, some (-122.4), some "Larceny",
    some "Mission", some "Central", some "Open - Active"⟩

/-- A raw row with a missing longitude (dropped by line 11). -/
def row2 : RawRow :=
  ⟨"2024-03-12 08:00:00", some 37.7, none, some "Larceny",
    some "Mission", some "Central", none⟩

/-- A valid raw row in the same month, with missing neighborhood and
district and a resolved disposition. -/
def row3 : RawRow :=
  ⟨"2024-03-20 23:15:00", some 37.8, some (-122.41), some "Larceny",
    none, none, some "Case Cleared by Arrest"⟩

/-- A raw row whose timestamp does not parse (dropped by line 11). -/
def rowBad : RawRow :=
  ⟨"not a date", some 37.7, some (-122.4), some "Assault",
    some "Mission", some "Central", some "Open"⟩

/-- The spec's three-row fixture: two valid Larceny rows in 2024-03 and
one row with a missing coordinate. -/
def fixtureRows : List RawRow :=
  [row1, row2, row3]

/-- The dataset record produced from `row1`. -/
def rec1 : FullRecord :=
  { datetime := ⟨2024, 3, 11, 12, 30, 0⟩
    date := ⟨2024, 3, 11, 0, 0, 0⟩
    hour := 12
    year := 2024
    weekday := "Monday"
    month := 3
    day := 11
    latitude := 37.7
    longitude := -122.4
    category := "Larceny"
    neighborhood := "Mission"
    district := some "Central"
    resolution := some "Open - Active"
    resolution_status := "Open" }

/-- The record `load_data` builds from `row1` (before lines 33-34). -/
def rec1base : Record :=
  { datetime := ⟨2024, 3, 11, 12, 30, 0⟩
    date := ⟨2024, 3, 11, 0, 0, 0⟩
    hour := 12
    year := 2024
    weekday := "Monday"
    month := 3
    day := 11
    latitude := 37.7
    longitude := -122.4
    category := some "Larceny"
    neighborhood := "Mission"
    district := some "Central"
    resolution := some "Open - Active" }

/-! ## Helper lemmas -/

theorem normalizeRow_isSome (row : RawRow) :
    (normalizeRow row).isSome = validRow row := by
  unfold normalizeRow validRow
  cases parseDatetime row.incidentDatetime <;>
    cases row.latitude <;> cases row.longitude <;> rfl

theorem normalizeRow_some {row : RawRow} {rec : Record}
    (h : normalizeRow row = some rec) :
    ∃ ts lat lon, parseDatetime row.incidentDatetime = some ts ∧
      row.latitude = some lat ∧ row.longitude = some lon ∧
      rec =
        { datetime := ts
          date := floorDay ts
          hour := ts.hour
          year := ts.year
          weekday := weekdayName (dayOfWeek ts.year ts.month ts.day)
          month := ts.month
          day := ts.day
          latitude := lat
          longitude := lon
          category := row.category
          neighborhood := row.neighborhood.getD "Unknown"
          district := row.district
          resolution := row.resolution } := by
  unfold normalizeRow at h
  cases hts : parseDatetime row.incidentDatetime with
  | none => rw [hts] at h; simp at h
  | some ts =>
    rw [hts] at h
    simp only [Option.some_bind] at h
    cases hlat : row.latitude with
    | none => rw [hlat] at h; simp at h
    | some lat =>
      rw [hlat] at h
      simp only [Option.some_bind] at h
      cases hlon : row.longitude with
      | none => rw [hlon] at h; simp at h
      | some lon =>
        rw [hlon] at h
        simp only [Option.some_bind, Option.some.injEq] at h
        exact ⟨ts, lat, lon, rfl, rfl, rfl, h.symm⟩

theorem load_data_length (rows : List RawRow) :
    (load_data rows).length = rows.countP validRow := by
  unfold load_data
  induction rows with
  | nil => rfl
  | cons row rest ih =>
    rw [List.filterMap_cons, List.countP_cons]
    cases hn : normalizeRow row with
    | none =>
      have hv : validRow row = false := by
        rw [← normalizeRow_isSome, hn]; rfl
      rw [hv]
      simp [ih]
    | some r =>
      have hv : validRow row = true := by
        rw [← normalizeRow_isSome, hn]; rfl
      rw [hv]
      simp [ih]

theorem sampleGo_length {α : Type} (n s : Nat) (l : List α) :
    (sampleGo n s l).length = min n l.length := by
  induction n generalizing s l with
  | zero => simp [sampleGo]
  | succ n ih =>
    cases l with
    | nil => simp [sampleGo]
    | cons a rest =>
      simp only [sampleGo, List.length_cons]
      have hi : s % (rest.length + 1) < (a :: rest).length := by
        simp only [List.length_cons]
        exact Nat.mod_lt _ (Nat.succ_pos rest.length)
      rw [ih, List.length_eraseIdx, if_pos hi]
      simp only [List.length_cons]
      omega

theorem sampleGo_subset {α : Type} {n s : Nat} {l : List α} {x : α}
    (h : x ∈ sampleGo n s l) : x ∈ l := by
  induction n generalizing s l with
  | zero => simp [sampleGo] at h
  | succ n ih =>
    cases l with
    | nil => simp [sampleGo] at h
    | cons a rest =>
      simp only [sampleGo, List.mem_cons] at h
      rcases h with h | h
      · rw [h]; exact List.get_mem _ _ _
      · exact (List.eraseIdx_sublist _ _).mem (ih h)

theorem limit_data_length {α : Type} (df : List α) (m : Nat) :
    (limit_data df m).length = min m df.length := by
  unfold limit_data
  by_cases h : m < df.length
  · rw [if_pos h]
    exact sampleGo_length m 42 df
  · rw [if_neg h, Nat.min_eq_right (Nat.not_lt.mp h)]

theorem limit_data_of_le {α : Type} {l : List α} {m : Nat}
    (h : l.length ≤ m) : limit_data l m = l := by
  unfold limit_data
  rw [if_neg (Nat.not_lt.mpr h)]

theorem uniqFromSeen_mem {α : Type} [DecidableEq α]
    (seen l : List α) (v : α) :
    v ∈ uniqFromSeen seen l ↔ v ∈ l ∧ v ∉ seen := by
  induction l generalizing seen with
  | nil => simp [uniqFromSeen]
  | cons x xs ih =>
    by_cases hx : x ∈ seen
    · rw [uniqFromSeen, if_pos hx, ih]
      constructor
      · rintro ⟨hv, hns⟩
        exact ⟨List.mem_cons_of_mem _ hv, hns⟩
      · rintro ⟨hv, hns⟩
        rcases List.mem_cons.mp hv with rfl | hv'
        · exact absurd hx hns
        · exact ⟨hv', hns⟩
    · rw [uniqFromSeen, if_neg hx, List.mem_cons, ih]
      constructor
      · rintro (rfl | ⟨hv, hns⟩)
        · exact ⟨List.mem_cons_self _ _, hx⟩
        · exact ⟨List.mem_cons_of_mem _ hv,
            fun hs => hns (List.mem_cons_of_mem _ hs)⟩
      · rintro ⟨hv, hns⟩
        by_cases hvx : v = x
        · exact Or.inl hvx
        · right
          have hv' : v ∈ xs := by
            rcases List.mem_cons.mp hv with h | h
            · exact absurd h hvx
            · exact h
          refine ⟨hv', fun hs => ?_⟩
          rcases List.mem_cons.mp hs with h | h
          · exact hvx h
          · exact hns h

theorem uniqueFirst_mem {α : Type} [DecidableEq α] (l : List α) (v : α) :
    v ∈ uniqueFirst l ↔ v ∈ l := by
  rw [uniqueFirst, uniqFromSeen_mem]
  simp

theorem valueCounts_mem_fst (l : List String) (v : String) :
    v ∈ (valueCounts l).map Prod.fst ↔ v ∈ l := by
  unfold valueCounts
  rw [List.mem_map]
  constructor
  · rintro ⟨p, hp, rfl⟩
    rw [List.mem_insertionSort, List.mem_map] at hp
    rcases hp with ⟨u, hu, rfl⟩
    exact (uniqueFirst_mem l u).mp hu
  · intro hv
    refine ⟨(v, l.count v), ?_, rfl⟩
    rw [List.mem_insertionSort, List.mem_map]
    exact ⟨v, (uniqueFirst_mem l v).mpr hv, rfl⟩

theorem valueCounts_count {l : List String} {v : String} {c : Nat}
    (h : (v, c) ∈ valueCounts l) : c = l.count v := by
  unfold valueCounts at h
  rw [List.mem_insertionSort, List.mem_map] at h
  rcases h with ⟨u, hu, he⟩
  simp only [Prod.mk.injEq] at he
  obtain ⟨rfl, rfl⟩ := he
  rfl

theorem time_series_keys (dfn : List FullRecord) :
    (time_series dfn).map Prod.fst =
      List.insertionSort tsLE (monthKeys dfn) := by
  unfold time_series
  rw [List.map_map]
  simp [Function.comp_def]

/-! ## Claim theorems -/

/-- C1: for every raw input row, the record set `load_data` produces
contains exactly one corresponding record when the row's timestamp parses
and both coordinates are present, and no record otherwise: the output
length counts exactly the valid rows, a single valid row yields exactly
one record, and a single invalid row yields none. -/
theorem C1_load_data_row_count (rows : List RawRow) :
    (load_data rows).length = rows.countP validRow ∧
    (∀ row, validRow row = true → (load_data [row]).length = 1) ∧
    (∀ row, validRow row = false → load_data [row] = []) := by
  refine ⟨load_data_length rows, ?_, ?_⟩
  · intro row hv
    rw [load_data_length, List.countP_cons, List.countP_nil, hv]
    simp
  · intro row hv
    have hn : normalizeRow row = none := by
      cases hq : normalizeRow row with
      | none => rfl
      | some r =>
        have hs := normalizeRow_isSome row
        rw [hq, hv] at hs
        simp at hs
    unfold load_data
    rw [List.filterMap_cons_none hn]
    rfl

/-- Witness for C1 at concrete rows: the valid `row1` yields one record
and the unparsable `rowBad` yields none. -/
theorem C1_load_data_row_count_witness :
    (load_data [row1]).length = 1 ∧ load_data [rowBad] = [] :=
  ⟨(C1_load_data_row_count []).2.1 row1 (by decide),
    (C1_load_data_row_count []).2.2 rowBad (by decide)⟩

/-- C2: `norm_res` returns `"Resolved"` exactly when the uppercased
textual representation of the cell contains one of the keywords
`ARREST`, `BOOKED`, `CITED`, `CLEARED`, `EXCEPTIONAL` as a substring, and
`"Open"` otherwise; it is total and binary-valued, and on the spec's
concrete cases: `"ARREST MADE" ↦ Resolved`, `"Unfounded" ↦ Open`,
`"" ↦ Open`, missing `↦ Open`. -/
theorem C2_norm_res (r : Option String) :
    (norm_res r = "Resolved" ↔
      ∃ k ∈ resolved_keys, OccursIn k.toList (upperStr (pyStr r)).toList) ∧
    (norm_res r = "Resolved" ∨ norm_res r = "Open") ∧
    norm_res (some "ARREST MADE") = "Resolved" ∧
    norm_res (some "Unfounded") = "Open" ∧
    norm_res (some "") = "Open" ∧
    norm_res none = "Open" := by
  have hdef : norm_res r =
      if resolved_keys.any
          (fun k => containsSeg k.toList (upperStr (pyStr r)).toList) then
        "Resolved" else "Open" := rfl
  refine ⟨?_, ?_, by decide, by decide, by decide, by decide⟩
  · rw [hdef]
    by_cases h : resolved_keys.any
        (fun k => containsSeg k.toList (upperStr (pyStr r)).toList) = true
    · rw [if_pos h]
      constructor
      · intro _
        rcases List.any_eq_true.mp h with ⟨k, hk, hc⟩
        exact ⟨k, hk, (containsSeg_iff _ _).mp hc⟩
      · intro _
        rfl
    · rw [if_neg h]
      constructor
      · intro hco
        exact absurd hco (by decide)
      · rintro ⟨k, hk, hocc⟩
        exact absurd
          (List.any_eq_true.mpr ⟨k, hk, (containsSeg_iff _ _).mpr hocc⟩) h
  · rw [hdef]
    by_cases h : resolved_keys.any
        (fun k => containsSeg k.toList (upperStr (pyStr r)).toList) = true
    · rw [if_pos h]
      exact Or.inl rfl
    · rw [if_neg h]
      exact Or.inr rfl

/-- C3 counterexample: on the dataset built from `row1` alone (a Monday
record), the weekday aggregation at hour 12 in district Central has key
list `["Monday"]` only — not the seven canonical weekday names the claim
requires, and not in Sunday-to-Saturday order. -/
theorem C3_counterexample_weekday_keys :
    (df_day_agg (buildDataset [row1]) 12 "Central").map Prod.fst =
      ["Monday"] ∧
    (df_day_agg (buildDataset [row1]) 12 "Central").map Prod.fst ≠
      ["Sunday", "Monday", "Tuesday", "Wednesday", "Thursday", "Friday",
        "Saturday"] := by
  decide

/-- C3 amended: the weekday grouping (`value_counts` of the filtered
`weekday` column, source lines 148-150) has as keys exactly the weekday
values that occur in the filtered subset — weekdays with zero count are
absent — and each key's count is its number of occurrences; the
Sunday-to-Saturday order exists only in the chart's sort specification,
not in the aggregation output, which is sorted by descending count. -/
theorem C3_weekday_group_keys (dfn : List FullRecord) (h : Nat)
    (d : String) :
    (∀ v, v ∈ (df_day_agg dfn h d).map Prod.fst ↔
      v ∈ (df_day dfn h d).map FullRecord.weekday) ∧
    (∀ v c, (v, c) ∈ df_day_agg dfn h d →
      c = ((df_day dfn h d).map FullRecord.weekday).count v) ∧
    (df_day_agg dfn h d).Pairwise (fun a b => b.2 ≤ a.2) := by
  refine ⟨?_, ?_, ?_⟩
  · intro v
    exact valueCounts_mem_fst ((df_day dfn h d).map FullRecord.weekday) v
  · intro v c hvc
    exact valueCounts_count hvc
  · exact List.sorted_insertionSort countGE
      ((uniqueFirst ((df_day dfn h d).map FullRecord.weekday)).map
        fun v => (v, ((df_day dfn h d).map FullRecord.weekday).count v))

/-- Witness for C3's amended theorem at the one-record fixture: the key
`"Monday"` carries count 1, its number of occurrences. -/
theorem C3_weekday_group_keys_witness :
    1 = ((df_day (buildDataset [row1]) 12 "Central").map
      FullRecord.weekday).count "Monday" :=
  (C3_weekday_group_keys (buildDataset [row1]) 12 "Central").2.1
    "Monday" 1 (by decide)

/-- C4 counterexample: on the spec's three-row fixture the month grouping
yields exactly one bucket with count 2, but its label is 2024-03-31 — the
last day of the month (`freq='M'` is pandas month-end) — not the first
day 2024-03-01 the claim states. -/
theorem C4_counterexample_month_label :
    time_series (buildDataset fixtureRows) =
      [(⟨2024, 3, 31, 0, 0, 0⟩, 2)] ∧
    (⟨2024, 3, 1, 0, 0, 0⟩, 2) ∉ time_series (buildDataset fixtureRows) := by
  decide

/-- C4 amended: the month grouping assigns each record to the bucket
labeled by the *last* day of that record's calendar month (pandas
month-end frequency `'M'`); two records of the same calendar month share
one bucket label; each bucket's count is the number of records carrying
that label; and on the three-row fixture with two valid Larceny records
in 2024-03 the grouping yields the single bucket 2024-03-31 with
count 2. -/
theorem C4_month_grouping (dfn : List FullRecord) :
    (∀ r, r ∈ dfn → monthEnd r.date ∈ (time_series dfn).map Prod.fst) ∧
    (∀ r r', r ∈ dfn → r' ∈ dfn → r.date.year = r'.date.year →
      r.date.month = r'.date.month → monthEnd r.date = monthEnd r'.date) ∧
    (∀ k c, (k, c) ∈ time_series dfn →
      c = (dfn.filter fun r => monthEnd r.date == k).length) ∧
    time_series (buildDataset fixtureRows) =
      [(⟨2024, 3, 31, 0, 0, 0⟩, 2)] := by
  refine ⟨?_, ?_, ?_, by decide⟩
  · intro r hr
    rw [time_series_keys, List.mem_insertionSort]
    unfold monthKeys
    rw [uniqueFirst_mem]
    exact List.mem_map_of_mem _ hr
  · intro r r' _ _ hy hm
    unfold monthEnd
    rw [hy, hm]
  · intro k c hkc
    unfold time_series at hkc
    rw [List.mem_map] at hkc
    rcases hkc with ⟨k', _, he⟩
    simp only [Prod.mk.injEq] at he
    obtain ⟨rfl, rfl⟩ := he
    rfl

/-- Witness for C4's amended theorem: the record built from `row1` has
its month-end label among the bucket labels of the grouping. -/
theorem C4_month_grouping_witness :
    monthEnd rec1.date ∈ (time_series (buildDataset [row1])).map Prod.fst :=
  (C4_month_grouping (buildDataset [row1])).1 rec1 (by
    rw [show buildDataset [row1] = [rec1] from rfl]
    exact List.mem_singleton_self _)

/-- C5: `limit_data` returns its input unchanged when the input has at
most `max_rows` records; otherwise it returns a subset of exactly
`max_rows` records (the output length is `min max_rows (length df)` in
all cases and every output element comes from the input); and — the seed
being fixed — two applications to the same input give identical
output. -/
theorem C5_limit_data {α : Type} (df : List α) (m : Nat) :
    (df.length ≤ m → limit_data df m = df) ∧
    (limit_data df m).length = min m df.length ∧
    (∀ x, x ∈ limit_data df m → x ∈ df) ∧
    limit_data df m = limit_data df m := by
  refine ⟨limit_data_of_le, limit_data_length df m, ?_, rfl⟩
  intro x hx
  unfold limit_data at hx
  by_cases h : m < df.length
  · rw [if_pos h] at hx
    exact sampleGo_subset hx
  · rw [if_neg h] at hx
    exact hx

/-- Witness for C5 at concrete inputs: a three-element list bounded by 5
is unchanged; a six-element list bounded by 3 is cut to exactly 3. -/
theorem C5_limit_data_witness :
    limit_data [0, 1, 2] 5 = [0, 1, 2] ∧
    (limit_data [0, 1, 2, 3, 4, 5] 3).length = 3 :=
  ⟨(C5_limit_data [0, 1, 2] 5).1 (by decide),
    by simpa using (C5_limit_data [0, 1, 2, 3, 4, 5] 3).2.1⟩

/-- C6: the two optional predicates of source lines 52-56 commute —
category-then-neighborhood, neighborhood-then-category, and the
simultaneous conjunction all give the same result set — and the omitted
(`'All'`) predicates pass every record. -/
theorem C6_filter_order_independent (dfn : List FullRecord)
    (cat neigh : String) :
    df_filtered dfn cat neigh = filteredBoth dfn cat neigh ∧
    df_filteredRev dfn cat neigh = filteredBoth dfn cat neigh ∧
    df_filtered dfn "All" "All" = dfn := by
  refine ⟨?_, ?_, by simp [df_filtered]⟩
  · by_cases hc : cat = "All" <;> by_cases hn : neigh = "All"
    · subst hc; subst hn
      simp [df_filtered, filteredBoth]
    · subst hc
      have hnb : (neigh == "All") = false := beq_eq_false_iff_ne.mpr hn
      simp [df_filtered, filteredBoth, hn, hnb]
    · subst hn
      have hcb : (cat == "All") = false := beq_eq_false_iff_ne.mpr hc
      simp [df_filtered, filteredBoth, hc, hcb]
    · have hcb : (cat == "All") = false := beq_eq_false_iff_ne.mpr hc
      have hnb : (neigh == "All") = false := beq_eq_false_iff_ne.mpr hn
      simp only [df_filtered, filteredBoth, ne_eq, hc, hn, hcb, hnb,
        not_false_iff, if_true, Bool.false_or, List.filter_filter]
      apply List.filter_congr
      intro r _
      rw [Bool.and_comm]
  · by_cases hc : cat = "All" <;> by_cases hn : neigh = "All"
    · subst hc; subst hn
      simp [df_filteredRev, filteredBoth]
    · subst hc
      have hnb : (neigh == "All") = false := beq_eq_false_iff_ne.mpr hn
      simp [df_filteredRev, filteredBoth, hn, hnb]
    · subst hn
      have hcb : (cat == "All") = false := beq_eq_false_iff_ne.mpr hc
      simp [df_filteredRev, filteredBoth, hc, hcb]
    · have hcb : (cat == "All") = false := beq_eq_false_iff_ne.mpr hc
      have hnb : (neigh == "All") = false := beq_eq_false_iff_ne.mpr hn
      simp only [df_filteredRev, filteredBoth, ne_eq, hc, hn, hcb, hnb,
        not_false_iff, if_true, Bool.false_or, List.filter_filter]

/-- C7: every record of the constructed dataset comes from a raw row
whose timestamp parsed (to the record's `datetime`) and whose coordinates
were present; its `category` and `neighborhood` are the raw values with a
missing value replaced by `"Unknown"`, its `district` is passed through
unchanged (left missing when missing), and its `resolution_status` is
`norm_res` of the raw resolution cell. -/
theorem C7_dataset_invariant (rows : List RawRow) (rec : FullRecord)
    (h : rec ∈ buildDataset rows) :
    ∃ row, row ∈ rows ∧
      parseDatetime row.incidentDatetime = some rec.datetime ∧
      row.latitude = some rec.latitude ∧
      row.longitude = some rec.longitude ∧
      rec.category = row.category.getD "Unknown" ∧
      rec.neighborhood = row.neighborhood.getD "Unknown" ∧
      rec.district = row.district ∧
      rec.resolution = row.resolution ∧
      rec.resolution_status = norm_res row.resolution := by
  unfold buildDataset at h
  rw [List.mem_map] at h
  rcases h with ⟨r, hr, rfl⟩
  rw [load_data, List.mem_filterMap] at hr
  rcases hr with ⟨row, hrow, hnorm⟩
  rcases normalizeRow_some hnorm with ⟨ts, lat, lon, hts, hlat, hlon, rfl⟩
  exact ⟨row, hrow, hts, hlat, hlon, rfl, rfl, rfl, rfl, rfl⟩

/-- Witness for C7 at `row1`: the concrete record `rec1` satisfies the
invariant against its raw row. -/
theorem C7_dataset_invariant_witness :
    ∃ row, row ∈ [row1] ∧
      parseDatetime row.incidentDatetime = some rec1.datetime ∧
      row.latitude = some rec1.latitude ∧
      row.longitude = some rec1.longitude ∧
      rec1.category = row.category.getD "Unknown" ∧
      rec1.neighborhood = row.neighborhood.getD "Unknown" ∧
      rec1.district = row.district ∧
      rec1.resolution = row.resolution ∧
      rec1.resolution_status = norm_res row.resolution :=
  C7_dataset_invariant [row1] rec1 (by
    rw [show buildDataset [row1] = [rec1] from rfl]
    exact List.mem_singleton_self _)

/-- C8: in every record `load_data` retains, the derived columns `hour`,
`year`, `month`, `day`, `weekday` and `date` are all computed from the
single parsed timestamp stored in the record (no second parse, no
timezone shift), `hour` lies in 0-23, and `date` is the timestamp with
its time-of-day fields zeroed (truncation to day granularity). -/
theorem C8_derived_fields (rows : List RawRow) (rec : Record)
    (h : rec ∈ load_data rows) :
    rec.hour = rec.datetime.hour ∧ rec.hour ≤ 23 ∧
    rec.year = rec.datetime.year ∧
    rec.month = rec.datetime.month ∧
    rec.day = rec.datetime.day ∧
    rec.weekday = weekdayName
      (dayOfWeek rec.datetime.year rec.datetime.month rec.datetime.day) ∧
    rec.date = floorDay rec.datetime ∧
    rec.date.hour = 0 ∧ rec.date.minute = 0 ∧ rec.date.second = 0 ∧
    rec.date.year = rec.datetime.year ∧
    rec.date.month = rec.datetime.month ∧
    rec.date.day = rec.datetime.day := by
  rw [load_data, List.mem_filterMap] at h
  rcases h with ⟨row, _, hnorm⟩
  rcases normalizeRow_some hnorm with ⟨ts, lat, lon, hts, _, _, rfl⟩
  exact ⟨rfl, parseDatetime_hour_le hts, rfl, rfl, rfl, rfl, rfl, rfl,
    rfl, rfl, rfl, rfl, rfl⟩

/-- Witness for C8 at the concrete record `load_data` builds from
`row1`. -/
theorem C8_derived_fields_witness :
    rec1base.hour = rec1base.datetime.hour ∧ rec1base.hour ≤ 23 ∧
    rec1base.year = rec1base.datetime.year ∧
    rec1base.month = rec1base.datetime.month ∧
    rec1base.day = rec1base.datetime.day ∧
    rec1base.weekday = weekdayName
      (dayOfWeek rec1base.datetime.year rec1base.datetime.month
        rec1base.datetime.day) ∧
    rec1base.date = floorDay rec1base.datetime ∧
    rec1base.date.hour = 0 ∧ rec1base.date.minute = 0 ∧
    rec1base.date.second = 0 ∧
    rec1base.date.year = rec1base.datetime.year ∧
    rec1base.date.month = rec1base.datetime.month ∧
    rec1base.date.day = rec1base.datetime.day :=
  C8_derived_fields [row1] rec1base (by
    rw [show load_data [row1] = [rec1base] from rfl]
    exact List.mem_singleton_self _)

/-- C9: normalization is deterministic — `load_data` is a pure function
of the raw rows alone (the model takes no seed and no clock), so two runs
on the same input produce identical record lists. -/
theorem C9_load_data_deterministic (rows₁ rows₂ : List RawRow)
    (h : rows₁ = rows₂) : load_data rows₁ = load_data rows₂ :=
  congrArg load_data h

/-- Witness for C9: two runs on the concrete row list coincide. -/
theorem C9_load_data_deterministic_witness :
    load_data [row1] = load_data [row1] :=
  C9_load_data_deterministic [row1] [row1] rfl

/-- C10: `limit_data` is idempotent — its output never exceeds
`max_rows` records, so a second application returns the output
unchanged. -/
theorem C10_limit_data_idempotent {α : Type} (df : List α) (m : Nat) :
    limit_data (limit_data df m) m = limit_data df m :=
  limit_data_of_le (by
    rw [limit_data_length]
    exact Nat.min_le_left m df.length)

end SFCrime
